import Mathlib

/-!
Verification of the majortom mutating admission webhook (main.go).

The embedding models the patch-operation data model, the two mutation
strategies (AddOwner and VarPatch), and the admission protocol handler
(podPatch) as pure Lean functions translated from the Go source.
Go maps become association lists, Go slices become lists, fallible
external steps (JSON decoding of the request body and of the embedded
pod, and the two outgoing serialization steps) are modelled as Option
inputs and Boolean success outcomes supplied to the handler.
-/

namespace MajorTom

/-- JSON values as produced by the program: strings, arrays and objects
(objects as ordered member lists). This covers every value the Go code
stores in an operation. -/
inductive Json where
  | str (s : String)
  | arr (elems : List Json)
  | obj (members : List (String × Json))

/-- One JSON-Patch step, mirroring the Go struct operation with fields
Op, Path and Value, where Value is an interface that may be nil
(modelled as Option). -/
structure operation where
  Op : String
  Path : String
  Value : Option Json

/-- Go addOp: build an add operation. -/
def addOp (path : String) (value : Option Json) : operation :=
  { Op := "add", Path := path, Value := value }

/-- Go replaceOp: build a replace operation. -/
def replaceOp (path : String) (value : Option Json) : operation :=
  { Op := "replace", Path := path, Value := value }

/-- The member list of the JSON object encoding an operation: fields in
struct order, with the value member omitted when the Value interface is
nil, as the omitempty tag on Value prescribes. -/
def operationFields (o : operation) : List (String × Json) :=
  match o.Value with
  | none => [("op", Json.str o.Op), ("path", Json.str o.Path)]
  | some v => [("op", Json.str o.Op), ("path", Json.str o.Path), ("value", v)]

/-- JSON serialization of an operation. -/
def serializeOperation (o : operation) : Json :=
  Json.obj (operationFields o)

/-- An environment-variable entry of a container: corev1.EnvVar with a
name, a literal value and an optional field-reference source. -/
structure EnvVar where
  Name : String
  Value : String
  ValueFrom : Option String
deriving DecidableEq, Repr

/-- A container: corev1.Container restricted to the fields the program
reads, a name and the ordered env sequence. -/
structure Container where
  Name : String
  Env : List EnvVar
deriving DecidableEq, Repr

/-- corev1.PodSpec restricted to the ordered container sequence. -/
structure PodSpec where
  Containers : List Container
deriving DecidableEq, Repr

/-- metav1.ObjectMeta restricted to the label mapping, an association
list standing for the Go map with unique keys. -/
structure ObjectMeta where
  Labels : List (String × String)
deriving DecidableEq, Repr

/-- corev1.Pod restricted to the fields the program reads. -/
structure Pod where
  ObjectMeta : ObjectMeta
  Spec : PodSpec
deriving DecidableEq, Repr

/-- Lookup in the label mapping, the model of the Go map index
expression. -/
def labelsLookup (k : String) : List (String × String) → Option String
  | [] => none
  | (k2, v) :: rest => if k2 = k then some v else labelsLookup k rest

/-- A Go error value, carrying its message. -/
structure GoError where
  message : String
deriving DecidableEq, Repr

/-- Go ErrPodHasOwnerLabel. -/
def ErrPodHasOwnerLabel : GoError := { message := "pod has owner" }

/-- Go AddOwner: reject a pod that already carries the owner label,
otherwise emit one add operation for it. -/
def AddOwner (pod : Pod) : List operation × Option GoError :=
  if (labelsLookup "owner" pod.ObjectMeta.Labels).isSome then
    ([], some ErrPodHasOwnerLabel)
  else
    ([addOp "/metadata/labels/owner" (some (Json.str "nathan.fisher"))], none)

/-- The field-reference descriptor map built inside varReplace and
varAdd (member order follows the sorted-key order Go marshalling
uses). -/
def fieldRefDescriptor (name value : String) : Json :=
  Json.obj [("name", Json.str name),
    ("valueFrom", Json.obj [("fieldRef", Json.obj [("fieldPath", Json.str value)])])]

/-- Go varReplace: replace operation at /spec/containers/cid/env/eid. -/
def varReplace (cid eid : Nat) (name value : String) : operation :=
  replaceOp ("/spec/containers/" ++ toString cid ++ "/env/" ++ toString eid)
    (some (fieldRefDescriptor name value))

/-- Go varAdd: when eid is zero the add targets the whole env path with
a singleton array value, otherwise the add targets index eid. -/
def varAdd (cid eid : Nat) (name value : String) : operation :=
  if eid = 0 then
    addOp ("/spec/containers/" ++ toString cid ++ "/env")
      (some (Json.arr [fieldRefDescriptor name value]))
  else
    addOp ("/spec/containers/" ++ toString cid ++ "/env/" ++ toString eid)
      (some (fieldRefDescriptor name value))

/-- The inner loop of VarPatch: index of the first env entry whose name
matches, none when no entry matches. -/
def findEnvIdx (name : String) : List EnvVar → Option Nat
  | [] => none
  | e :: rest =>
    if e.Name = name then some 0
    else (findEnvIdx name rest).map (fun j => j + 1)

/-- One iteration of the outer loop of VarPatch: the single operation
emitted for container number i. -/
def varPatchContainer (name value : String) (i : Nat) (c : Container) : operation :=
  match findEnvIdx name c.Env with
  | some j => varReplace i j name value
  | none => varAdd i c.Env.length name value

/-- The outer loop of VarPatch, accumulating one operation per
container in container order, starting at container index i. -/
def varPatchLoop (name value : String) : Nat → List Container → List operation
  | _, [] => []
  | i, c :: rest => varPatchContainer name value i c :: varPatchLoop name value (i + 1) rest

/-- Go VarPatch name value applied to a pod: one operation per
container, never an error. -/
def VarPatch (name value : String) (pod : Pod) : List operation × Option GoError :=
  (varPatchLoop name value 0 pod.Spec.Containers, none)

/-- Go constant ApplicationJson. -/
def ApplicationJson : String := "application/json"

/-- metav1.NamespacePublic. -/
def NamespacePublic : String := "kube-public"

/-- metav1.NamespaceSystem. -/
def NamespaceSystem : String := "kube-system"

/-- Go isSystem: whether the namespace is one of the protected
kube namespaces. -/
def isSystem (ns : String) : Bool :=
  if ns = NamespacePublic then true
  else if ns = NamespaceSystem then true
  else false

/-- metav1.GroupVersionResource. -/
structure GroupVersionResource where
  Group : String
  Version : String
  Resource : String
deriving DecidableEq, Repr

/-- The podResource descriptor the handler compares against: zero
group, version v1, resource pods. -/
def podResource : GroupVersionResource :=
  { Group := "", Version := "v1", Resource := "pods" }

/-- v1.AdmissionRequest restricted to the fields the handler reads.
Object stands for the raw embedded payload together with the outcome of
unmarshalling it as a pod: none when json.Unmarshal fails. -/
structure AdmissionRequest where
  UID : String
  Namespace : String
  Resource : GroupVersionResource
  Object : Option Pod
deriving DecidableEq, Repr

/-- v1.AdmissionReview inbound envelope: the request pointer, nil when
absent. -/
structure AdmissionReview where
  Request : Option AdmissionRequest
deriving DecidableEq, Repr

/-- The outbound v1.AdmissionResponse the handler builds: the echoed
request UID, the allowed flag, the patch-type marker and the marshalled
operation array. -/
structure AdmissionResponseOut where
  UID : String
  Allowed : Bool
  PatchType : String
  Patch : Json

/-- The outbound v1.AdmissionReview envelope with its TypeMeta. -/
structure AdmissionReviewOut where
  Kind : String
  APIVersion : String
  Response : AdmissionResponseOut

/-- The observable outcome of one handler invocation: either an
http.Error with a status code and a reason body, or the 200 response
carrying the outbound envelope. -/
inductive HandlerResult where
  | httpError (code : Nat) (msg : String)
  | ok (resp : AdmissionReviewOut)

/-- Go podPatch translated over its observable inputs. body is the
outcome of decoding the request body as an AdmissionReview (none when
the decoder fails); marshalOk and encodeOk are the success outcomes of
json.Marshal on the operations and of Encoder.Encode on the response,
the two fallible serialization steps. Each check short-circuits via
early return exactly as in the source. -/
def podPatch (apply : Pod → List operation × Option GoError)
    (method contentType : String) (body : Option AdmissionReview)
    (marshalOk encodeOk : Bool) : HandlerResult :=
  if method ≠ "POST" then
    HandlerResult.httpError 405 "only POST permitted"
  else if contentType ≠ ApplicationJson then
    HandlerResult.httpError 400 "invalid content-type"
  else
    match body with
    | none => HandlerResult.httpError 400 "error reading response body"
    | some review =>
      match review.Request with
      | none => HandlerResult.httpError 400 "nil admission request"
      | some req =>
        if isSystem req.Namespace then
          HandlerResult.httpError 403 "will not modify resource in kube-* namespace"
        else if req.Resource ≠ podResource then
          HandlerResult.httpError 400 "resource not a v1.Pod"
        else
          match req.Object with
          | none => HandlerResult.httpError 400 "unable to unmarshal kubernetes v1.Pod"
          | some pod =>
            match apply pod with
            | (_, some err) => HandlerResult.httpError 403 err.message
            | (ops, none) =>
              if !marshalOk then
                HandlerResult.httpError 500 "unable to marshal operation json"
              else if !encodeOk then
                HandlerResult.httpError 500 "unable to encode response json"
              else
                HandlerResult.ok
                  { Kind := "AdmissionReview"
                    APIVersion := "admission.k8s.io/v1"
                    Response :=
                      { UID := req.UID
                        Allowed := true
                        PatchType := "JSONPatch"
                        Patch := Json.arr (ops.map serializeOperation) } }

/-- Insertion into the label mapping with map semantics: overwrite the
value when the key is present, append the pair when it is absent. -/
def labelsInsert (k v : String) : List (String × String) → List (String × String)
  | [] => [(k, v)]
  | (k2, v2) :: rest =>
    if k2 = k then (k, v) :: rest else (k2, v2) :: labelsInsert k v rest

/-- Modelled from the spec: the JSON-Patch add application step for an
operation targeting the label key under /metadata/labels, applied to
the label mapping of the pod. The apply step itself is performed by the
cluster API server and is not part of this repository; this definition
follows the standard add semantics the spec appeals to: an add at
/metadata/labels/key sets key to the given string value. Operations of
any other shape are out of the domain of this model and yield none. -/
def applyLabelsAdd (key : String) (o : operation) (labels : List (String × String)) :
    Option (List (String × String)) :=
  if o.Op = "add" ∧ o.Path = "/metadata/labels/" ++ key then
    match o.Value with
    | some (Json.str v) => some (labelsInsert key v labels)
    | _ => none
  else none

/-- AddOwner with the pod state threaded explicitly: the Go function
receives a pointer to the pod, so its translation returns the pod value
as it stands after the call together with the result. The body only
reads the pod, so every path returns the pod it received. -/
def AddOwnerRun (pod : Pod) : Pod × (List operation × Option GoError) :=
  if (labelsLookup "owner" pod.ObjectMeta.Labels).isSome then
    (pod, ([], some ErrPodHasOwnerLabel))
  else
    (pod, ([addOp "/metadata/labels/owner" (some (Json.str "nathan.fisher"))], none))

/-- The outer loop of VarPatch with the pod state threaded explicitly
through each iteration; no iteration writes to the pod. -/
def varPatchLoopRun (name value : String) :
    Nat → Pod → List Container → Pod × List operation
  | _, pod, [] => (pod, [])
  | i, pod, c :: rest =>
    let op := varPatchContainer name value i c
    let r := varPatchLoopRun name value (i + 1) pod rest
    (r.1, op :: r.2)

/-- VarPatch with the pod state threaded explicitly. -/
def VarPatchRun (name value : String) (pod : Pod) :
    Pod × (List operation × Option GoError) :=
  let r := varPatchLoopRun name value 0 pod pod.Spec.Containers
  (r.1, (r.2, none))

/-! Helper lemmas about the VarPatch loops. -/

theorem varPatchLoop_length (name value : String) (i : Nat) (cs : List Container) :
    (varPatchLoop name value i cs).length = cs.length := by
  induction cs generalizing i with
  | nil => rfl
  | cons c rest ih => simp [varPatchLoop, ih]

theorem varPatchLoop_get (name value : String) (i : Nat) (cs : List Container)
    (k : Nat) (hk : k < cs.length)
    (hk2 : k < (varPatchLoop name value i cs).length) :
    (varPatchLoop name value i cs).get ⟨k, hk2⟩ =
      varPatchContainer name value (i + k) (cs.get ⟨k, hk⟩) := by
  induction cs generalizing i k with
  | nil => exact absurd hk (by simp)
  | cons c rest ih =>
    cases k with
    | zero => simp [varPatchLoop]
    | succ k =>
      have hk3 : k < rest.length := by simpa using hk
      have hk4 : k < (varPatchLoop name value (i + 1) rest).length := by
        rw [varPatchLoop_length]; exact hk3
      have := ih (i + 1) k hk3 hk4
      simp only [varPatchLoop, List.get_cons_succ]
      rw [this]
      congr 1
      omega

theorem findEnvIdx_none_iff (name : String) (env : List EnvVar) :
    findEnvIdx name env = none ↔
      ∀ k (hk : k < env.length), (env.get ⟨k, hk⟩).Name ≠ name := by
  induction env with
  | nil => simp [findEnvIdx]
  | cons e rest ih =>
    by_cases h : e.Name = name
    · simp only [findEnvIdx, if_pos h]
      constructor
      · intro hc; exact absurd hc (by simp)
      · intro hall
        exact absurd h (by simpa using hall 0 (by simp))
    · simp only [findEnvIdx, if_neg h, Option.map_eq_none']
      rw [ih]
      constructor
      · intro hall k hk
        cases k with
        | zero => simpa using h
        | succ k => exact hall k (by simpa using hk)
      · intro hall k hk
        exact hall (k + 1) (by simpa using hk)

theorem findEnvIdx_some_iff (name : String) (env : List EnvVar) (j : Nat) :
    findEnvIdx name env = some j ↔
      ∃ hj : j < env.length, (env.get ⟨j, hj⟩).Name = name ∧
        ∀ k (hk : k < env.length), k < j → (env.get ⟨k, hk⟩).Name ≠ name := by
  induction env generalizing j with
  | nil => simp [findEnvIdx]
  | cons e rest ih =>
    by_cases h : e.Name = name
    · simp only [findEnvIdx, if_pos h]
      constructor
      · intro hj
        cases hj
        exact ⟨by simp, by simpa using h, by omega⟩
      · rintro ⟨hj, hmatch, hfirst⟩
        cases j with
        | zero => rfl
        | succ j =>
          exact absurd h (by simpa using hfirst 0 (by simp) (by omega))
    · simp only [findEnvIdx, if_neg h]
      constructor
      · intro hj
        rcases Option.map_eq_some'.mp hj with ⟨j0, hj0, hjeq⟩
        rcases (ih j0).mp hj0 with ⟨hlt, hmatch, hfirst⟩
        subst hjeq
        refine ⟨by simpa using hlt, by simpa using hmatch, ?_⟩
        intro k hk hkj
        cases k with
        | zero => simpa using h
        | succ k =>
          exact hfirst k (by simpa using hk) (by omega)
      · rintro ⟨hj, hmatch, hfirst⟩
        cases j with
        | zero => exact absurd (by simpa using hmatch) h
        | succ j =>
          have hj0 : findEnvIdx name rest = some j := by
            refine (ih j).mpr ⟨by simpa using hj, by simpa using hmatch, ?_⟩
            intro k hk hkj
            exact hfirst (k + 1) (by simpa using hk) (by omega)
          simp [hj0]

theorem labelsLookup_labelsInsert (k v : String) (l : List (String × String)) :
    labelsLookup k (labelsInsert k v l) = some v := by
  induction l with
  | nil => simp [labelsInsert, labelsLookup]
  | cons p rest ih =>
    by_cases h : p.1 = k
    · simp [labelsInsert, labelsLookup, h]
    · simp [labelsInsert, labelsLookup, h, ih]

theorem varPatchLoopRun_fst (name value : String) (i : Nat) (pod : Pod)
    (cs : List Container) :
    (varPatchLoopRun name value i pod cs).1 = pod := by
  induction cs generalizing i with
  | nil => rfl
  | cons c rest ih => simp [varPatchLoopRun, ih]

theorem varPatchLoopRun_snd (name value : String) (i : Nat) (pod : Pod)
    (cs : List Container) :
    (varPatchLoopRun name value i pod cs).2 = varPatchLoop name value i cs := by
  induction cs generalizing i with
  | nil => rfl
  | cons c rest ih => simp [varPatchLoopRun, varPatchLoop, ih]

/-- C3: for every pod whose label mapping does not contain the key
owner, AddOwner returns exactly one add operation at
/metadata/labels/owner with the configured literal value and no error;
for every pod whose label mapping does contain the key owner, it
returns a domain error and zero operations. -/
theorem addOwner_label_assignment (pod : Pod) :
    (labelsLookup "owner" pod.ObjectMeta.Labels = none →
      AddOwner pod =
        ([addOp "/metadata/labels/owner" (some (Json.str "nathan.fisher"))], none)) ∧
    (∀ v, labelsLookup "owner" pod.ObjectMeta.Labels = some v →
      AddOwner pod = ([], some ErrPodHasOwnerLabel)) := by
  constructor
  · intro h
    simp [AddOwner, h]
  · intro v h
    simp [AddOwner, h]

/-- Witness for C3 at two concrete pods, one without and one with the
owner label. -/
theorem addOwner_label_assignment_witness :
    AddOwner { ObjectMeta := { Labels := [] }, Spec := { Containers := [] } } =
      ([addOp "/metadata/labels/owner" (some (Json.str "nathan.fisher"))], none) ∧
    AddOwner { ObjectMeta := { Labels := [("owner", "betty.boop")] }, Spec := { Containers := [] } } =
      ([], some ErrPodHasOwnerLabel) :=
  ⟨(addOwner_label_assignment _).1 rfl,
   (addOwner_label_assignment _).2 "betty.boop" rfl⟩

/-- C5: VarPatch always returns a nil error, and its operation list is
empty exactly when the pod has zero containers. -/
theorem varPatch_never_fails_empty_iff (name value : String) (pod : Pod) :
    (VarPatch name value pod).2 = none ∧
    ((VarPatch name value pod).1 = [] ↔ pod.Spec.Containers = []) := by
  refine ⟨rfl, ?_, ?_⟩
  · intro h
    have hl := varPatchLoop_length name value 0 pod.Spec.Containers
    rw [show (VarPatch name value pod).1 = varPatchLoop name value 0 pod.Spec.Containers from rfl] at h
    rw [h] at hl
    exact List.length_eq_zero.mp hl.symm
  · intro h
    simp [VarPatch, h, varPatchLoop]

/-- Witness for C5 at a concrete zero-container pod. -/
theorem varPatch_never_fails_empty_iff_witness :
    (VarPatch "NODEIP" "status.hostIP"
      { ObjectMeta := { Labels := [] }, Spec := { Containers := [] } }).2 = none ∧
    (VarPatch "NODEIP" "status.hostIP"
      { ObjectMeta := { Labels := [] }, Spec := { Containers := [] } }).1 = [] :=
  ⟨(varPatch_never_fails_empty_iff "NODEIP" "status.hostIP" _).1,
   (varPatch_never_fails_empty_iff "NODEIP" "status.hostIP" _).2.mpr rfl⟩

/-- C7: every operation serializes to an object with members op and
path and, exactly when a value is present, a value member; the two
constructors stamp op with add and replace respectively and store the
path and value unchanged. -/
theorem operation_wire_shape (o : operation) (path : String) (ov : Option Json) :
    (o.Value = none →
      serializeOperation o = Json.obj [("op", Json.str o.Op), ("path", Json.str o.Path)]) ∧
    (∀ w, o.Value = some w →
      serializeOperation o =
        Json.obj [("op", Json.str o.Op), ("path", Json.str o.Path), ("value", w)]) ∧
    addOp path ov = { Op := "add", Path := path, Value := ov } ∧
    replaceOp path ov = { Op := "replace", Path := path, Value := ov } := by
  refine ⟨?_, ?_, rfl, rfl⟩
  · intro h
    simp [serializeOperation, operationFields, h]
  · intro w h
    simp [serializeOperation, operationFields, h]

/-- Witness for C7 at a concrete valueless operation and a concrete
operation holding a value. -/
theorem operation_wire_shape_witness :
    serializeOperation { Op := "add", Path := "/p", Value := none } =
      Json.obj [("op", Json.str "add"), ("path", Json.str "/p")] ∧
    serializeOperation (replaceOp "/q" (some (Json.str "v"))) =
      Json.obj [("op", Json.str "replace"), ("path", Json.str "/q"),
        ("value", Json.str "v")] :=
  ⟨(operation_wire_shape { Op := "add", Path := "/p", Value := none } "/p" none).1 rfl,
   (operation_wire_shape (replaceOp "/q" (some (Json.str "v"))) "/q"
      (some (Json.str "v"))).2.1 (Json.str "v") rfl⟩

/-- C9: neither strategy mutates the pod it receives: the state-passing
translations return the pod unchanged on every path, with labels,
containers and env sequences identical, and only describe operations,
agreeing with the pure strategies. -/
theorem strategies_do_not_mutate_pod (name value : String) (pod : Pod) :
    (AddOwnerRun pod).1 = pod ∧
    (AddOwnerRun pod).1.ObjectMeta.Labels = pod.ObjectMeta.Labels ∧
    (VarPatchRun name value pod).1 = pod ∧
    (VarPatchRun name value pod).1.Spec.Containers = pod.Spec.Containers ∧
    (AddOwnerRun pod).2 = AddOwner pod ∧
    (VarPatchRun name value pod).2 = VarPatch name value pod := by
  have h1 : (AddOwnerRun pod).1 = pod := by
    unfold AddOwnerRun
    split <;> rfl
  have h2 : (VarPatchRun name value pod).1 = pod := by
    unfold VarPatchRun
    simp [varPatchLoopRun_fst]
  have h3 : (AddOwnerRun pod).2 = AddOwner pod := by
    unfold AddOwnerRun AddOwner
    split <;> rfl
  have h4 : (VarPatchRun name value pod).2 = VarPatch name value pod := by
    unfold VarPatchRun VarPatch
    simp [varPatchLoopRun_snd]
  exact ⟨h1, by rw [h1], h2, by rw [h2], h3, h4⟩

/-- C10: both strategies are deterministic: on equal pods, equal
results. -/
theorem strategies_deterministic (name value : String) (p1 p2 : Pod) (h : p1 = p2) :
    AddOwner p1 = AddOwner p2 ∧ VarPatch name value p1 = VarPatch name value p2 := by
  subst h
  exact ⟨rfl, rfl⟩

/-- Witness for C10 at a concrete pod. -/
theorem strategies_deterministic_witness :
    AddOwner { ObjectMeta := { Labels := [("a", "b")] }, Spec := { Containers := [] } } =
      AddOwner { ObjectMeta := { Labels := [("a", "b")] }, Spec := { Containers := [] } } ∧
    VarPatch "NODEIP" "status.hostIP"
        { ObjectMeta := { Labels := [("a", "b")] }, Spec := { Containers := [] } } =
      VarPatch "NODEIP" "status.hostIP"
        { ObjectMeta := { Labels := [("a", "b")] }, Spec := { Containers := [] } } :=
  strategies_deterministic "NODEIP" "status.hostIP" _ _ rfl

/-- C6: for every pod without the owner label, applying the single add
operation AddOwner emits to the label mapping and running AddOwner
again on the result yields the same domain error a pod already
carrying the label yields, and zero operations. -/
theorem addOwner_idempotent (pod : Pod)
    (h : labelsLookup "owner" pod.ObjectMeta.Labels = none) :
    ∃ op labels2,
      AddOwner pod = ([op], none) ∧
      applyLabelsAdd "owner" op pod.ObjectMeta.Labels = some labels2 ∧
      AddOwner { ObjectMeta := { Labels := labels2 }, Spec := pod.Spec } =
        ([], some ErrPodHasOwnerLabel) := by
  refine ⟨addOp "/metadata/labels/owner" (some (Json.str "nathan.fisher")),
    labelsInsert "owner" "nathan.fisher" pod.ObjectMeta.Labels, ?_, ?_, ?_⟩
  · simp [AddOwner, h]
  · unfold applyLabelsAdd addOp
    rw [if_pos ⟨rfl, rfl⟩]
  · simp [AddOwner, labelsLookup_labelsInsert]

/-- Witness for C6 at a concrete pod carrying no labels. -/
theorem addOwner_idempotent_witness :
    ∃ op labels2,
      AddOwner { ObjectMeta := { Labels := [] }, Spec := { Containers := [] } } =
        ([op], none) ∧
      applyLabelsAdd "owner" op [] = some labels2 ∧
      AddOwner { ObjectMeta := { Labels := labels2 }, Spec := { Containers := [] } } =
        ([], some ErrPodHasOwnerLabel) :=
  addOwner_idempotent { ObjectMeta := { Labels := [] }, Spec := { Containers := [] } } rfl

/-- C1: VarPatch emits exactly one operation per container, in
container order; for container i, when the first matching env entry
sits at index j the operation is a replace at
/spec/containers/i/env/j with the field-reference descriptor; when no
entry matches and the env sequence is empty it is an add at
/spec/containers/i/env with a singleton array value; when no entry
matches and the env sequence is non-empty it is an add at index
len of the existing env sequence. -/
theorem varPatch_field_env_per_container (name value : String) (pod : Pod)
    (i : Nat) (hi : i < pod.Spec.Containers.length)
    (hio : i < (VarPatch name value pod).1.length) :
    (VarPatch name value pod).2 = none ∧
    (VarPatch name value pod).1.length = pod.Spec.Containers.length ∧
    (∀ j (hj : j < (pod.Spec.Containers.get ⟨i, hi⟩).Env.length),
      ((pod.Spec.Containers.get ⟨i, hi⟩).Env.get ⟨j, hj⟩).Name = name →
      (∀ k (hk : k < (pod.Spec.Containers.get ⟨i, hi⟩).Env.length), k < j →
        ((pod.Spec.Containers.get ⟨i, hi⟩).Env.get ⟨k, hk⟩).Name ≠ name) →
      (VarPatch name value pod).1.get ⟨i, hio⟩ =
        replaceOp ("/spec/containers/" ++ toString i ++ "/env/" ++ toString j)
          (some (fieldRefDescriptor name value))) ∧
    ((∀ k (hk : k < (pod.Spec.Containers.get ⟨i, hi⟩).Env.length),
        ((pod.Spec.Containers.get ⟨i, hi⟩).Env.get ⟨k, hk⟩).Name ≠ name) →
      ((pod.Spec.Containers.get ⟨i, hi⟩).Env = [] →
        (VarPatch name value pod).1.get ⟨i, hio⟩ =
          addOp ("/spec/containers/" ++ toString i ++ "/env")
            (some (Json.arr [fieldRefDescriptor name value]))) ∧
      ((pod.Spec.Containers.get ⟨i, hi⟩).Env ≠ [] →
        (VarPatch name value pod).1.get ⟨i, hio⟩ =
          addOp ("/spec/containers/" ++ toString i ++ "/env/" ++
              toString (pod.Spec.Containers.get ⟨i, hi⟩).Env.length)
            (some (fieldRefDescriptor name value)))) := by
  have h0 := varPatchLoop_get name value 0 pod.Spec.Containers i hi hio
  have hget : (VarPatch name value pod).1.get ⟨i, hio⟩ =
      varPatchContainer name value i (pod.Spec.Containers.get ⟨i, hi⟩) := by
    simpa [VarPatch] using h0
  refine ⟨rfl, varPatchLoop_length name value 0 pod.Spec.Containers, ?_, ?_⟩
  · intro j hj hmatch hfirst
    have hfind : findEnvIdx name (pod.Spec.Containers.get ⟨i, hi⟩).Env = some j :=
      (findEnvIdx_some_iff name _ j).mpr ⟨hj, hmatch, hfirst⟩
    rw [hget]
    unfold varPatchContainer
    rw [hfind]
    rfl
  · intro hnone
    have hfind : findEnvIdx name (pod.Spec.Containers.get ⟨i, hi⟩).Env = none :=
      (findEnvIdx_none_iff name _).mpr hnone
    constructor
    · intro hempty
      rw [hget]
      unfold varPatchContainer
      rw [hfind]
      unfold varAdd
      rw [hempty]
      simp
    · intro hne
      have hlen : (pod.Spec.Containers.get ⟨i, hi⟩).Env.length ≠ 0 := by
        simpa [List.length_eq_zero] using hne
      rw [hget]
      unfold varPatchContainer
      rw [hfind]
      unfold varAdd
      rw [if_neg hlen]

/-- A concrete two-container pod: the first container already holds the
NODEIP variable, the second has no env entries. -/
def witnessPodC1 : Pod :=
  { ObjectMeta := { Labels := [] }
    Spec := { Containers :=
      [{ Name := "c0", Env := [{ Name := "NODEIP", Value := "x", ValueFrom := none }] },
       { Name := "c1", Env := [] }] } }

/-- Witness for C1 at the concrete two-container pod. -/
theorem varPatch_field_env_per_container_witness :
    (VarPatch "NODEIP" "status.hostIP" witnessPodC1).1.get ⟨0, by decide⟩ =
      replaceOp ("/spec/containers/" ++ toString 0 ++ "/env/" ++ toString 0)
        (some (fieldRefDescriptor "NODEIP" "status.hostIP")) :=
  (varPatch_field_env_per_container "NODEIP" "status.hostIP" witnessPodC1
    0 (by decide) (by decide)).2.2.1 0 (by decide) rfl
    (fun k hk hkj => absurd hkj (Nat.not_lt_zero k))

/-- C8: when the env sequence of container i holds more than one entry
with the target name, VarPatch emits for that container a single
replace operation at the smallest matching index; later duplicates are
ignored. -/
theorem varPatch_duplicate_env_first_index (name value : String) (pod : Pod)
    (i : Nat) (hi : i < pod.Spec.Containers.length)
    (hio : i < (VarPatch name value pod).1.length)
    (j1 j2 : Nat) (hlt : j1 < j2)
    (hj2 : j2 < (pod.Spec.Containers.get ⟨i, hi⟩).Env.length)
    (hm1 : ((pod.Spec.Containers.get ⟨i, hi⟩).Env.get ⟨j1, Nat.lt_trans hlt hj2⟩).Name = name)
    (hm2 : ((pod.Spec.Containers.get ⟨i, hi⟩).Env.get ⟨j2, hj2⟩).Name = name) :
    ∃ j, ∃ hj : j < (pod.Spec.Containers.get ⟨i, hi⟩).Env.length,
      j ≤ j1 ∧
      ((pod.Spec.Containers.get ⟨i, hi⟩).Env.get ⟨j, hj⟩).Name = name ∧
      (∀ k (hk : k < (pod.Spec.Containers.get ⟨i, hi⟩).Env.length), k < j →
        ((pod.Spec.Containers.get ⟨i, hi⟩).Env.get ⟨k, hk⟩).Name ≠ name) ∧
      (VarPatch name value pod).1.get ⟨i, hio⟩ =
        replaceOp ("/spec/containers/" ++ toString i ++ "/env/" ++ toString j)
          (some (fieldRefDescriptor name value)) := by
  have hnotnone : findEnvIdx name (pod.Spec.Containers.get ⟨i, hi⟩).Env ≠ none := by
    intro hcon
    exact ((findEnvIdx_none_iff name _).mp hcon) j1 (Nat.lt_trans hlt hj2) hm1
  obtain ⟨j, hj⟩ := Option.ne_none_iff_exists'.mp hnotnone
  obtain ⟨hjlt, hjm, hjfirst⟩ := (findEnvIdx_some_iff name _ j).mp hj
  have hjle : j ≤ j1 := by
    by_contra hcon
    push_neg at hcon
    exact hjfirst j1 (Nat.lt_trans hlt hj2) hcon hm1
  have h0 := varPatchLoop_get name value 0 pod.Spec.Containers i hi hio
  have hget : (VarPatch name value pod).1.get ⟨i, hio⟩ =
      varPatchContainer name value i (pod.Spec.Containers.get ⟨i, hi⟩) := by
    simpa [VarPatch] using h0
  refine ⟨j, hjlt, hjle, hjm, hjfirst, ?_⟩
  rw [hget]
  unfold varPatchContainer
  rw [hj]
  rfl

/-- A concrete pod whose single container carries the NODEIP name at
env indices 0 and 1. -/
def witnessPodC8 : Pod :=
  { ObjectMeta := { Labels := [] }
    Spec := { Containers :=
      [{ Name := "c0", Env :=
        [{ Name := "NODEIP", Value := "a", ValueFrom := none },
         { Name := "NODEIP", Value := "b", ValueFrom := none }] }] } }

/-- Witness for C8 at the concrete duplicate-entry pod. -/
theorem varPatch_duplicate_env_first_index_witness :
    ∃ j, ∃ hj : j < (witnessPodC8.Spec.Containers.get ⟨0, by decide⟩).Env.length,
      j ≤ 0 ∧
      ((witnessPodC8.Spec.Containers.get ⟨0, by decide⟩).Env.get ⟨j, hj⟩).Name = "NODEIP" ∧
      (∀ k (hk : k < (witnessPodC8.Spec.Containers.get ⟨0, by decide⟩).Env.length), k < j →
        ((witnessPodC8.Spec.Containers.get ⟨0, by decide⟩).Env.get ⟨k, hk⟩).Name ≠ "NODEIP") ∧
      (VarPatch "NODEIP" "status.hostIP" witnessPodC8).1.get ⟨0, by decide⟩ =
        replaceOp ("/spec/containers/" ++ toString 0 ++ "/env/" ++ toString j)
          (some (fieldRefDescriptor "NODEIP" "status.hostIP")) :=
  varPatch_duplicate_env_first_index "NODEIP" "status.hostIP" witnessPodC8
    0 (by decide) (by decide) 0 1 (by decide) (by decide) rfl rfl

/-- C2: the handler checks its constraints in a fixed order and the
first violated constraint alone determines the status and reason:
405 for a non-POST method, 400 invalid content-type, 400 for an
unparseable body, 400 nil admission request, 403 for a protected
namespace, 400 for a non-pod resource, 400 for a pod payload that does
not decode, 403 for a strategy domain error, 500 for a patch or
response serialization failure, and 200 otherwise. -/
theorem podPatch_first_violation (apply : Pod → List operation × Option GoError)
    (method contentType : String) (body : Option AdmissionReview)
    (marshalOk encodeOk : Bool) :
    (method ≠ "POST" →
      podPatch apply method contentType body marshalOk encodeOk =
        HandlerResult.httpError 405 "only POST permitted") ∧
    (method = "POST" → contentType ≠ ApplicationJson →
      podPatch apply method contentType body marshalOk encodeOk =
        HandlerResult.httpError 400 "invalid content-type") ∧
    (method = "POST" → contentType = ApplicationJson → body = none →
      podPatch apply method contentType body marshalOk encodeOk =
        HandlerResult.httpError 400 "error reading response body") ∧
    (∀ review, method = "POST" → contentType = ApplicationJson → body = some review →
      review.Request = none →
      podPatch apply method contentType body marshalOk encodeOk =
        HandlerResult.httpError 400 "nil admission request") ∧
    (∀ review req, method = "POST" → contentType = ApplicationJson →
      body = some review → review.Request = some req → isSystem req.Namespace = true →
      podPatch apply method contentType body marshalOk encodeOk =
        HandlerResult.httpError 403 "will not modify resource in kube-* namespace") ∧
    (∀ review req, method = "POST" → contentType = ApplicationJson →
      body = some review → review.Request = some req → isSystem req.Namespace = false →
      req.Resource ≠ podResource →
      podPatch apply method contentType body marshalOk encodeOk =
        HandlerResult.httpError 400 "resource not a v1.Pod") ∧
    (∀ review req, method = "POST" → contentType = ApplicationJson →
      body = some review → review.Request = some req → isSystem req.Namespace = false →
      req.Resource = podResource → req.Object = none →
      podPatch apply method contentType body marshalOk encodeOk =
        HandlerResult.httpError 400 "unable to unmarshal kubernetes v1.Pod") ∧
    (∀ review req pod ops err, method = "POST" → contentType = ApplicationJson →
      body = some review → review.Request = some req → isSystem req.Namespace = false →
      req.Resource = podResource → req.Object = some pod →
      apply pod = (ops, some err) →
      podPatch apply method contentType body marshalOk encodeOk =
        HandlerResult.httpError 403 err.message) ∧
    (∀ review req pod ops, method = "POST" → contentType = ApplicationJson →
      body = some review → review.Request = some req → isSystem req.Namespace = false →
      req.Resource = podResource → req.Object = some pod →
      apply pod = (ops, none) → marshalOk = false →
      podPatch apply method contentType body marshalOk encodeOk =
        HandlerResult.httpError 500 "unable to marshal operation json") ∧
    (∀ review req pod ops, method = "POST" → contentType = ApplicationJson →
      body = some review → review.Request = some req → isSystem req.Namespace = false →
      req.Resource = podResource → req.Object = some pod →
      apply pod = (ops, none) → marshalOk = true → encodeOk = false →
      podPatch apply method contentType body marshalOk encodeOk =
        HandlerResult.httpError 500 "unable to encode response json") ∧
    (∀ review req pod ops, method = "POST" → contentType = ApplicationJson →
      body = some review → review.Request = some req → isSystem req.Namespace = false →
      req.Resource = podResource → req.Object = some pod →
      apply pod = (ops, none) → marshalOk = true → encodeOk = true →
      ∃ resp, podPatch apply method contentType body marshalOk encodeOk =
        HandlerResult.ok resp) := by
  refine ⟨?_, ?_, ?_, ?_, ?_, ?_, ?_, ?_, ?_, ?_, ?_⟩
  · intro h
    simp [podPatch, h]
  · intro h1 h2
    simp [podPatch, h1, h2]
  · intro h1 h2 h3
    simp [podPatch, h1, h2, h3]
  · intro review h1 h2 h3 h4
    simp [podPatch, h1, h2, h3, h4]
  · intro review req h1 h2 h3 h4 h5
    simp [podPatch, h1, h2, h3, h4, h5]
  · intro review req h1 h2 h3 h4 h5 h6
    simp [podPatch, h1, h2, h3, h4, h5, h6]
  · intro review req h1 h2 h3 h4 h5 h6 h7
    simp [podPatch, h1, h2, h3, h4, h5, h6, h7]
  · intro review req pod ops err h1 h2 h3 h4 h5 h6 h7 h8
    simp [podPatch, h1, h2, h3, h4, h5, h6, h7, h8]
  · intro review req pod ops h1 h2 h3 h4 h5 h6 h7 h8 h9
    simp [podPatch, h1, h2, h3, h4, h5, h6, h7, h8, h9]
  · intro review req pod ops h1 h2 h3 h4 h5 h6 h7 h8 h9 h10
    simp [podPatch, h1, h2, h3, h4, h5, h6, h7, h8, h9, h10]
  · intro review req pod ops h1 h2 h3 h4 h5 h6 h7 h8 h9 h10
    refine ⟨{ Kind := "AdmissionReview"
              APIVersion := "admission.k8s.io/v1"
              Response :=
                { UID := req.UID
                  Allowed := true
                  PatchType := "JSONPatch"
                  Patch := Json.arr (ops.map serializeOperation) } }, ?_⟩
    simp [podPatch, h1, h2, h3, h4, h5, h6, h7, h8, h9, h10]

/-- A concrete inbound envelope targeting the kube-system namespace. -/
def witnessReviewC2 : AdmissionReview :=
  { Request := some { UID := "u1", Namespace := "kube-system", Resource := podResource, Object := none } }

/-- Witness for C2: a GET request is rejected with 405 and a request in
the kube-system namespace is rejected with 403. -/
theorem podPatch_first_violation_witness :
    podPatch AddOwner "GET" ApplicationJson none true true =
      HandlerResult.httpError 405 "only POST permitted" ∧
    podPatch AddOwner "POST" ApplicationJson (some witnessReviewC2) true true =
      HandlerResult.httpError 403 "will not modify resource in kube-* namespace" :=
  ⟨(podPatch_first_violation AddOwner "GET" ApplicationJson none true true).1
      (by decide),
   (podPatch_first_violation AddOwner "POST" ApplicationJson
      (some witnessReviewC2) true true).2.2.2.2.1
      _ _ rfl rfl rfl rfl rfl⟩

/-- C4: for every request that passes validation and whose strategy
succeeds, the response envelope copies the inbound request UID
unchanged, sets allowed to true, sets the patch-type marker to
JSONPatch, carries the serialized operation sequence, and has kind
AdmissionReview and apiVersion admission.k8s.io/v1; and no reachable
outcome of the handler carries allowed equal to false. -/
theorem podPatch_success_envelope (apply : Pod → List operation × Option GoError)
    (method contentType : String) (body : Option AdmissionReview)
    (marshalOk encodeOk : Bool) :
    (∀ review req pod ops, method = "POST" → contentType = ApplicationJson →
      body = some review → review.Request = some req → isSystem req.Namespace = false →
      req.Resource = podResource → req.Object = some pod →
      apply pod = (ops, none) → marshalOk = true → encodeOk = true →
      podPatch apply method contentType body marshalOk encodeOk =
        HandlerResult.ok
          { Kind := "AdmissionReview"
            APIVersion := "admission.k8s.io/v1"
            Response :=
              { UID := req.UID
                Allowed := true
                PatchType := "JSONPatch"
                Patch := Json.arr (ops.map serializeOperation) } }) ∧
    (∀ resp, podPatch apply method contentType body marshalOk encodeOk =
        HandlerResult.ok resp → resp.Response.Allowed = true) := by
  constructor
  · intro review req pod ops h1 h2 h3 h4 h5 h6 h7 h8 h9 h10
    simp [podPatch, h1, h2, h3, h4, h5, h6, h7, h8, h9, h10]
  · intro resp h
    unfold podPatch at h
    split at h
    · exact absurd h (by simp)
    · split at h
      · exact absurd h (by simp)
      · split at h
        · exact absurd h (by simp)
        · split at h
          · exact absurd h (by simp)
          · split at h
            · exact absurd h (by simp)
            · split at h
              · exact absurd h (by simp)
              · split at h
                · exact absurd h (by simp)
                · split at h
                  · exact absurd h (by simp)
                  · split at h
                    · exact absurd h (by simp)
                    · split at h
                      · exact absurd h (by simp)
                      · injection h with h2
                        rw [← h2]

/-- A concrete unlabeled, containerless pod for the C4 witness. -/
def witnessPodC4 : Pod :=
  { ObjectMeta := { Labels := [] }, Spec := { Containers := [] } }

/-- A concrete valid inbound envelope around the C4 witness pod. -/
def witnessReviewC4 : AdmissionReview :=
  { Request := some { UID := "uid-42", Namespace := "default", Resource := podResource, Object := some witnessPodC4 } }

/-- Witness for C4: the happy path on a concrete unlabeled pod with the
AddOwner strategy. -/
theorem podPatch_success_envelope_witness :
    podPatch AddOwner "POST" ApplicationJson (some witnessReviewC4) true true =
      HandlerResult.ok
        { Kind := "AdmissionReview"
          APIVersion := "admission.k8s.io/v1"
          Response :=
            { UID := "uid-42"
              Allowed := true
              PatchType := "JSONPatch"
              Patch := Json.arr
                ([addOp "/metadata/labels/owner" (some (Json.str "nathan.fisher"))].map
                  serializeOperation) } } :=
  (podPatch_success_envelope AddOwner "POST" ApplicationJson
    (some witnessReviewC4) true true).1 witnessReviewC4 _ witnessPodC4
    [addOp "/metadata/labels/owner" (some (Json.str "nathan.fisher"))]
    rfl rfl rfl rfl rfl rfl rfl rfl rfl rfl

end MajorTom
